import Mathlib

/-
Verification of the OCFL object library core (package ocfl) against its
natural-language specification.  The Go source is shallowly embedded:

* pure control flow is translated into Lean functions over explicit
  oracle inputs that stand for the outcomes of filesystem and hashing
  calls (each `Option`/`Except` argument records whether the call
  succeeded and with what value, exactly at the call sites the Go code
  has);
* channel-based streaming code (validation) is translated into functions
  producing the list of errors emitted on the stream, with the
  cancellation flag sampled at each point the Go code samples it;
* struct mutation is translated into explicit state passing.

Embedded functions keep the source names where Lean allows it.
-/

namespace OCFL

/-- Error values surfaced by the library.  The tagged structural /
checksum / cancellation categories correspond to the error codes in
validation.go; `ioErr` stands for an arbitrary I/O error surfaced
verbatim (os or fs package errors). -/
inductive VErr where
  | invIDErr
  | invTypeErr
  | invDigestErr
  | invNoManErr
  | invNoVerErr
  | verFormatErr
  | manDigestErr
  | manPathErr
  | contentChecksumErr
  | ctxCanceledErr
  | ioErr (msg : String)
deriving DecidableEq

/-! ## Stage.Rename (stage.go lines 144-158)

The Go function performs, in order:
1. if `isStaged(src)`: `os.Rename` in the scratch dir, returning its
   error immediately on failure, else recording `renamedStaged = true`;
2. `stage.State.Rename(src, dst)`, whose error is returned only when
   `renamedStaged` is false.

The two fallible calls are represented by oracles `fsRenameErr` and
`stateRenameErr`; `staged` is the result of `stage.isStaged(src)`. -/

def stageRename (staged : Bool) (fsRenameErr stateRenameErr : Option String) :
    Option String :=
  if staged then
    match fsRenameErr with
    | some e => some e
    | none => none
  else
    match stateRenameErr with
    | some e => some e
    | none => none

/-! ## ObjectReader.readDeclaration (object_reader.go lines 43-60) -/

/-- OCFL error codes E003 (declaration missing), E007 (declaration
malformed), E034 (inventory missing). -/
inductive OcflCode where
  | e003
  | e007
  | e034
deriving DecidableEq

/-- Result of `obj.root.Open(objectDeclarationFile)` followed by
`io.ReadAll`: the open can fail with a not-exist error or another error;
when it succeeds the read can fail or return the full content. -/
inductive DeclOpen where
  | notExist
  | openErr (msg : String)
  | ok (readResult : Except String String)

/-- Outcome of readDeclaration: success, an error wrapping an OCFL code
(the Go code wraps with fmt.Errorf and %w), or a raw I/O error returned
verbatim. -/
inductive RdOutcome where
  | ok
  | errWrap (code : OcflCode)
  | rawErr (msg : String)
deriving DecidableEq

/-- The literal `objectDeclaration` constant of object_reader.go. -/
def objectDeclaration : String := "ocfl_object_1.0"

/-- readDeclaration: open the declaration file (missing wraps E003, any
other open error is returned as-is), read the whole body (read errors
returned as-is), and compare against `objectDeclaration + "\n"`
(mismatch wraps E007). -/
def readDeclaration (f : DeclOpen) : RdOutcome :=
  match f with
  | .notExist => .errWrap .e003
  | .openErr m => .rawErr m
  | .ok r =>
    match r with
    | .error m => .rawErr m
    | .ok content =>
      if content = objectDeclaration ++ "\n" then .ok else .errWrap .e007

/-! ## Stage.fullPath and Stage.isStaged (stage.go lines 179-187)

`fullPath` is `filepath.Join(stage.Path, lPath)`.  Go's Join of the
non-empty elements is `Clean` of the "/"-joined string; `Clean` is
embedded below for slash-separated paths (the platform separator on the
target systems). -/

/-- Split a string on the slash character. -/
def splitSlashAux : List Char → List Char → List (List Char)
  | [], cur => [cur.reverse]
  | c :: rest, cur =>
    if c = '/' then cur.reverse :: splitSlashAux rest []
    else splitSlashAux rest (c :: cur)

def splitSlash (s : String) : List String :=
  (splitSlashAux s.data []).map List.asString

/-- Join components with slashes. -/
def joinSlash : List String → String
  | [] => ""
  | [x] => x
  | x :: y :: rest => x ++ "/" ++ joinSlash (y :: rest)

/-- One step of Go filepath.Clean over the components read left to
right; the accumulator holds the output components in reverse.  Empty
and "." components are dropped; ".." pops the previous component, except
that it is kept when there is nothing to pop in a relative path and
dropped at the root of a rooted path. -/
def cleanFold (rooted : Bool) : List String → List String → List String
  | acc, [] => acc
  | acc, c :: rest =>
    if c = "" ∨ c = "." then cleanFold rooted acc rest
    else if c = ".." then
      match acc with
      | [] => cleanFold rooted (if rooted then [] else [".."]) rest
      | h :: t =>
        if h = ".." then cleanFold rooted (".." :: h :: t) rest
        else cleanFold rooted t rest
    else cleanFold rooted (c :: acc) rest

/-- Go filepath.Clean for slash-separated paths. -/
def goClean (p : String) : String :=
  if p = "" then "."
  else
    let rooted : Bool :=
      match p.data with
      | '/' :: _ => true
      | _ => false
    let out := (cleanFold rooted [] (splitSlash p)).reverse
    if rooted then "/" ++ joinSlash out
    else if out = [] then "." else joinSlash out

/-- Go filepath.Join for two elements: Clean of the "/"-join of the
non-empty elements, and the empty string when both are empty. -/
def goJoin (a b : String) : String :=
  if a = "" ∧ b = "" then ""
  else if a = "" then goClean b
  else if b = "" then goClean a
  else goClean (a ++ "/" ++ b)

/-- Stage.fullPath: filepath.Join(stage.Path, lPath). -/
def fullPath (stagePath lPath : String) : String := goJoin stagePath lPath

/-- Outcome of an os.Stat call: success, a not-exist error, a permission
error, or another error. -/
inductive StatOutcome where
  | ok
  | errNotExist
  | errPermission (msg : String)
  | errOther (msg : String)
deriving DecidableEq

/-- os.IsNotExist applied to the error of the stat call (false on a nil
error). -/
def statIsNotExist : StatOutcome → Bool
  | .errNotExist => true
  | _ => false

/-- Stage.isStaged: `_, err := os.Stat(stage.fullPath(lPath)); return
!os.IsNotExist(err)`, with `st` the outcome of the stat call. -/
def isStaged (st : StatOutcome) : Bool := !(statIsNotExist st)

/-- Claim C6: Stage.Rename(src, dst) returns nil iff at least one of the
two renames succeeds — the filesystem rename (attempted only when src is
staged) or the rename in the logical state; a failed filesystem rename
is returned as the error, and a failed state rename is ignored (nil,
filesystem change kept) whenever the filesystem rename succeeded. -/
theorem c6_rename_policy (staged : Bool) (fse ste : Option String) :
    (stageRename staged fse ste = none ↔
      (staged = true ∧ fse = none) ∨ (staged = false ∧ ste = none)) ∧
    (∀ e, stageRename true (some e) ste = some e) ∧
    (∀ e, stageRename true none (some e) = none) := by
  refine ⟨?_, fun e => rfl, fun e => rfl⟩
  cases staged <;> cases fse <;> cases ste <;> simp [stageRename]

/-- Claim C8: readDeclaration wraps E003 when the declaration file does
not exist, wraps E007 when it exists (and reads) but the full content is
not exactly the bytes of objectDeclaration followed by a newline, and
returns nil on an exact match. -/
theorem c8_declaration (content : String) :
    readDeclaration .notExist = .errWrap .e003 ∧
    (content ≠ objectDeclaration ++ "\n" →
      readDeclaration (.ok (.ok content)) = .errWrap .e007) ∧
    readDeclaration (.ok (.ok (objectDeclaration ++ "\n"))) = .ok := by
  refine ⟨rfl, fun h => ?_, ?_⟩
  · simp [readDeclaration, h]
  · simp [readDeclaration]

theorem c8_declaration_witness :
    readDeclaration (.ok (.ok "ocfl_object_1.0")) = .errWrap .e007 :=
  (c8_declaration "ocfl_object_1.0").2.1 (by decide)

/-- Claim C10: on a Stage whose OpenFile was never called (Path is the
empty string), fullPath resolves a logical path to itself — a path
relative to the process working directory rather than any scratch
directory — and isStaged returns true for every stat outcome other
than a not-exist error: for any stat error other than not-exist (a
permission error, any other error) and also for a nil stat error. -/
theorem c10_fullpath_isstaged (lPath : String) (st : StatOutcome)
    (h : goClean lPath = lPath) (hst : st ≠ StatOutcome.errNotExist) :
    fullPath "" lPath = lPath ∧ isStaged st = true := by
  constructor
  · have hne : lPath ≠ "" := by
      intro he
      rw [he] at h
      exact absurd h (by decide)
    unfold fullPath goJoin
    simp [hne, h]
  · cases st with
    | errNotExist => exact absurd rfl hst
    | ok => rfl
    | errPermission m => rfl
    | errOther m => rfl

theorem c10_fullpath_isstaged_witness :
    fullPath "" "a.txt" = "a.txt" ∧
      isStaged (.errOther "input output error") = true :=
  c10_fullpath_isstaged "a.txt" (.errOther "input output error")
    (by decide) (by decide)

/-! ## Stage.Commit (stage.go lines 52-118)

The stage state is the `State` content map (nil or a map), the scratch
`Path`, and the parent `object` pointer.  The in-memory inventory fields
touched by Commit are the manifest and the head; the on-disk root
inventory.json (what a fresh ObjectReader reads) is tracked separately
as `diskHead`.

Modelled from the spec: Object.nextVersion, Object.writeInventory and
Object.writeInventoryVersion are not under src/.  Per spec sections 4.C
and 4.E they respectively compute the next version id (modelled as an
oracle outcome) and persist the inventory atomically (temp file +
rename), so a failed root-inventory write leaves the previously
published root inventory — and hence `diskHead` — unchanged, and a
successful one replaces it with the in-memory inventory.  ContentMap's
AddReplace and Add are likewise not under src/; per spec section 4.B
AddReplace rebinds the path unconditionally and Add appends a
(digest, path) pair (its collision error is discarded by the walk
closure). -/

/-- The per-regular-file outcomes of the commit walk closure: the
Checksum call under the inventory digest algorithm, and the two
filepath.Rel calls (relative to the object root: the manifest path;
relative to the version content dir: the logical path fragment). -/
structure WalkFile where
  digestResult : Except VErr String
  relObjResult : Except VErr String
  relContResult : Except VErr String

/-- Oracle outcomes of the fallible calls made by Commit, in source
order. -/
structure CommitEnv where
  nextVersionResult : Except VErr String
  mkdirErr : Option VErr
  readDirResult : Except VErr Nat
  renameErr : Option VErr
  walkFiles : List WalkFile
  writeVerInvErr : Option VErr
  writeRootInvErr : Option VErr

/-- The Stage fields Commit reads and writes: `StateMap` is
`stage.State` (`none` is Go nil; pairs are (digest, logical path)),
`Path` is the scratch dir, `hasObject` is `stage.object != nil`. -/
structure StageModel where
  StateMap : Option (List (String × String))
  Path : String
  hasObject : Bool

/-- The parent object's inventory as Commit and a fresh reader see it:
`manifest` is the in-memory manifest ((digest, manifest path) pairs),
`memHead` the in-memory head, `diskHead` the head recorded by the
published on-disk root inventory.json. -/
structure ObjectModel where
  manifest : List (String × String)
  memHead : String
  diskHead : String

/-- ContentMap.AddReplace on the version state: unconditionally rebind
the logical path to the digest. -/
def addReplace (st : List (String × String)) (d p : String) :
    List (String × String) :=
  (d, p) :: st.filter (fun q => !(q.2 = p))

/-- The walk closure folded over the regular files in visit order:
filepath.Walk aborts at the first file whose digest or relative-path
computation fails (the closure returns that error), having already
added the earlier files to the state and the manifest; Commit discards
the error Walk returns. -/
def walkFold : List (String × String) → List (String × String) →
    List WalkFile → List (String × String) × List (String × String)
  | st, man, [] => (st, man)
  | st, man, f :: rest =>
    match f.digestResult with
    | .error _ => (st, man)
    | .ok d =>
      match f.relObjResult with
      | .error _ => (st, man)
      | .ok ePath =>
        match f.relContResult with
        | .error _ => (st, man)
        | .ok vPath => walkFold (addReplace st d vPath) (man ++ [(d, ePath)]) rest

/-- Result of Commit: the returned error and the stage and object after
the call. -/
structure CommitOut where
  result : Option VErr
  stage : StageModel
  obj : ObjectModel

/-- The content-moving part of Commit (stage.go lines 70-100): when the
scratch dir is set, read it (propagating the error), and when it has
entries rename it to the version content dir (propagating the error)
and walk it; the pair returned is the stage state and the manifest
after the walk.  The error the walk itself returns is discarded by the
caller, which `walkFold` already accounts for. -/
def commitContentStep (stagePath : String) (st0 man : List (String × String))
    (e : CommitEnv) :
    Except VErr (List (String × String) × List (String × String)) :=
  if stagePath = "" then .ok (st0, man)
  else
    match e.readDirResult with
    | .error er => .error er
    | .ok n =>
      if n = 0 then .ok (st0, man)
      else
        match e.renameErr with
        | some er => .error er
        | none => .ok (walkFold st0 man e.walkFiles)

/-- Stage.Commit: check the parent object and state, compute the next
version, create the version directory, move a non-empty scratch dir to
the content dir and walk it (the walk error is discarded), install the
new version and head in the in-memory inventory, then write the
version-directory inventory followed by the root inventory.  Only a
successful root write republishes `diskHead`. -/
def commit (s : StageModel) (o : ObjectModel) (e : CommitEnv) : CommitOut :=
  if s.hasObject = false then ⟨some (.ioErr "stage has no parent object"), s, o⟩
  else
    match s.StateMap with
    | none => ⟨some (.ioErr "stage has no state"), s, o⟩
    | some st0 =>
      match e.nextVersionResult with
      | .error er => ⟨some er, s, o⟩
      | .ok nv =>
        match e.mkdirErr with
        | some er => ⟨some er, s, o⟩
        | none =>
          match commitContentStep s.Path st0 o.manifest e with
          | .error er => ⟨some er, s, o⟩
          | .ok (st1, man1) =>
            match e.writeVerInvErr with
            | some er => ⟨some er, { s with StateMap := some st1 },
                { o with manifest := man1, memHead := nv }⟩
            | none =>
              match e.writeRootInvErr with
              | some er => ⟨some er, { s with StateMap := some st1 },
                  { o with manifest := man1, memHead := nv }⟩
              | none => ⟨none, { s with StateMap := some st1 },
                  { o with manifest := man1, memHead := nv, diskHead := nv }⟩

/-- A stage with one staged file and a parent object at head v1. -/
def sampleStage : StageModel :=
  ⟨some [("d0", "old.txt")], "objdir/stage123", true⟩

def sampleObj : ObjectModel :=
  ⟨[("d0", "v1/content/old.txt")], "v1", "v1"⟩

/-- A commit run in which every filesystem call succeeds and the one
regular file walked digests successfully. -/
def sampleEnv : CommitEnv :=
  ⟨.ok "v2", none, .ok 1, none,
    [⟨.ok "dA", .ok "v2/content/a.txt", .ok "a.txt"⟩], none, none⟩

/-- A commit run identical to `sampleEnv` except that digesting the one
staged regular file fails (for example the file cannot be opened). -/
def digestFailEnv : CommitEnv :=
  ⟨.ok "v2", none, .ok 1, none,
    [⟨.error (.ioErr "open a.txt: permission denied"),
      .ok "v2/content/a.txt", .ok "a.txt"⟩], none, none⟩

/-- Claim C1 (code bug): stage.go line 98 discards the error returned by
filepath.Walk, so when digesting the staged regular file fails during
the commit walk, Commit does not return that error — it proceeds and
returns success (nil from the inventory writes), with the file silently
missing from the manifest.  The spec (section 4.E / section 7) says the
first error is surfaced. -/
theorem c1_walk_error_dropped :
    (commit sampleStage sampleObj digestFailEnv).result = none ∧
    (commit sampleStage sampleObj digestFailEnv).result ≠
      some (.ioErr "open a.txt: permission denied") ∧
    (commit sampleStage sampleObj digestFailEnv).obj.manifest =
      sampleObj.manifest := by decide

/-- Claim C2: Commit atomicity with respect to the published root
inventory.  Whenever Commit returns an error — including the case where
the version-directory inventory was written but the root inventory
write failed — the on-disk root inventory still records the previous
head, so a fresh ObjectReader opens the old head; when Commit returns
nil the on-disk root inventory records the freshly assigned next
version, so a fresh ObjectReader opens the new head. -/
theorem c2_commit_atomic (s : StageModel) (o : ObjectModel) (e : CommitEnv) :
    ((commit s o e).result ≠ none → (commit s o e).obj.diskHead = o.diskHead) ∧
    ((commit s o e).result = none →
      ∃ nv, e.nextVersionResult = Except.ok nv ∧
        (commit s o e).obj.diskHead = nv) := by
  unfold commit
  repeat' split
  all_goals constructor
  all_goals intro h
  all_goals first
    | rfl
    | exact absurd rfl h
    | exact ⟨_, by assumption, rfl⟩
    | simp at h

theorem c2_commit_atomic_witness :
    ∃ nv, sampleEnv.nextVersionResult = Except.ok nv ∧
      (commit sampleStage sampleObj sampleEnv).obj.diskHead = nv :=
  (c2_commit_atomic sampleStage sampleObj sampleEnv).2 (by decide)

/-- Claim C5 (counterexample): after a Commit that returns success the
stage is not cleared — its Path still holds the scratch directory name
and its State is still set; Commit never calls stage.clear. -/
theorem c5_stage_not_cleared :
    (commit sampleStage sampleObj sampleEnv).result = none ∧
    (commit sampleStage sampleObj sampleEnv).stage.Path = "objdir/stage123" ∧
    (commit sampleStage sampleObj sampleEnv).stage.StateMap ≠ none := by decide

/-- Claim C5 (amended): a successful Commit consumes the scratch
directory contents through the rename into the version content dir, but
it does not clear the Stage: stage.Path keeps its value and stage.State
remains a non-nil map. -/
theorem c5_amended_retention (s : StageModel) (o : ObjectModel) (e : CommitEnv) :
    (commit s o e).result = none →
      (commit s o e).stage.Path = s.Path ∧
        ((commit s o e).stage.StateMap).isSome = true := by
  unfold commit
  repeat' split
  all_goals intro h
  all_goals first
    | exact ⟨rfl, rfl⟩
    | simp at h

theorem c5_amended_retention_witness :
    (commit sampleStage sampleObj sampleEnv).stage.Path = sampleStage.Path ∧
      ((commit sampleStage sampleObj sampleEnv).stage.StateMap).isSome = true :=
  c5_amended_retention sampleStage sampleObj sampleEnv (by decide)

/-! ## Stage.OpenFile (stage.go lines 125-141)

The oracle fields record, in source order: the ioutil.TempDir call made
when the stage has no scratch dir yet, the os.Stat of the parent
directory of the full staged path, the os.MkdirAll error (which the Go
code ignores), and the os.OpenFile error. -/

structure OpenFileEnv where
  tempDirResult : Except String String
  statParent : StatOutcome
  mkdirAllErr : Option String
  openErr : Option String

/-- Stage.OpenFile returning the Go pair (file, error), where the file
handle is represented by the full path it opens.  When the stat of the
parent directory reports not-exist, MkdirAll runs (errors ignored) and
the file is opened; in every other stat outcome — including success,
meaning the parent directory exists — the function returns the stat
call's error, which is nil on success, without opening anything. -/
def openFile (stagePath lPath : String) (env : OpenFileEnv) :
    Option String × Option String :=
  match (if stagePath = "" then env.tempDirResult else .ok stagePath) with
  | .error e => (none, some e)
  | .ok sp =>
    match env.statParent with
    | .errNotExist =>
      match env.openErr with
      | none => (some (fullPath sp lPath), none)
      | some e => (none, some e)
    | .ok => (none, none)
    | .errPermission e => (none, some e)
    | .errOther e => (none, some e)

/-- Claim C4 (code bug): OpenFile only reaches the os.OpenFile call when
the stat of the parent directory reports not-exist; when the parent
directory already exists (the stat error is nil) it falls into the else
branch and returns (nil, nil) — no handle and no error — contradicting
the claim that it opens scratchDir/lPath whether or not the parent
exists.  The spec itself flags this path as a bug in section 9.  For
contrast, the same call with a missing parent directory does create and
open the file. -/
theorem c4_openfile_parent_exists_bug :
    openFile "objdir/stage123" "a.txt" ⟨.ok "objdir/stage123", .ok, none, none⟩ =
      (none, none) ∧
    openFile "objdir/stage123" "sub/a.txt"
        ⟨.ok "objdir/stage123", .errNotExist, none, none⟩ =
      (some "objdir/stage123/sub/a.txt", none) := by decide

/-! ## Object.Validate and Inventory.validateStructure
(validation.go lines 71-124 and 209-269)

The inventory is embedded with the fields validateStructure reads.
`manifest` and `versions` are `Option`s so that Go nil maps are
distinguished from empty ones; a version contributes the list of
digests of its state (validateStructure iterates the state keys only).

Modelled from the spec: the Inventory helpers versionNames,
versionPadding and versionGen are not under src/.  Per spec sections 3
(INV-2) and 4.C, versionNames lists the version keys sorted ascending;
the padding of a version name is the width of its numeric part when
zero-padded and 0 otherwise; versionGen(i, padding) renders i with that
padding after the letter v.  The supported digest algorithm list and
the inventory type constant are taken from spec sections 3 and 6. -/

def lookupAssoc {α : Type} (l : List (String × α)) (k : String) : Option α :=
  (l.find? (fun p => p.1 = k)).map (fun p => p.2)

/-- Decimal digits of a natural number, fuel-recursive so that it
reduces in the kernel. -/
def natDigitsAux : Nat → Nat → List Char → List Char
  | 0, _, acc => acc
  | fuel + 1, n, acc =>
    if n < 10 then Char.ofNat (48 + n % 10) :: acc
    else natDigitsAux fuel (n / 10) (Char.ofNat (48 + n % 10) :: acc)

def natToStr (n : Nat) : String := (natDigitsAux (n + 1) n []).asString

/-- Insertion sort on strings (ascending). -/
def insertSorted (s : String) : List String → List String
  | [] => [s]
  | h :: t => if s ≤ h then s :: h :: t else h :: insertSorted s t

def sortStrings (l : List String) : List String := l.foldr insertSorted []

/-- Modelled from the spec: versionPadding — 0 for unpadded names such
as v1, and the numeric width for zero-padded names such as v0001. -/
def versionPadding (name : String) : Nat :=
  let num :=
    match name.data with
    | 'v' :: rest => rest
    | l => l
  match num with
  | '0' :: _ => num.length
  | _ => 0

/-- Modelled from the spec: versionGen — the version name for index i
under the given padding (the error Go returns for an overflowing index
is discarded at the call site in validateStructure). -/
def versionGen (i : Nat) (padding : Nat) : String :=
  if padding = 0 then "v" ++ natToStr i
  else
    "v" ++ (List.replicate (padding - (natToStr i).length) '0').asString ++
      natToStr i

/-- The supported digest algorithms (spec section 6). -/
def digestAlgorithms : List String :=
  ["sha256", "sha512", "sha1", "md5", "blake2b-512"]

/-- The inventory type constant (spec section 3). -/
def inventoryTypeStr : String := "https://ocfl.io/1.0/spec/#inventory"

/-- The inventory fields read by validateStructure.  Each entry of
`versions` is a version name paired with the digests of its state; each
entry of `manifest` is a digest paired with its content paths. -/
structure VInv where
  id : String
  typ : String
  digestAlgorithm : String
  manifest : Option (List (String × List String))
  versions : Option (List (String × List String))
deriving DecidableEq

def versionsList (inv : VInv) : List (String × List String) :=
  inv.versions.getD []

def versionNames (inv : VInv) : List String :=
  sortStrings ((versionsList inv).map (fun p => p.1))

/-- ContentMap.LenDigest: the number of paths recorded under the
digest, 0 for a nil manifest or an absent digest. -/
def lenDigest (man : Option (List (String × List String))) (d : String) : Nat :=
  match man with
  | none => 0
  | some m =>
    match lookupAssoc m d with
    | none => 0
    | some ps => ps.length

/-- The VerFormatErr emissions: with the padding detected from the
first sorted version name, every index from 1 to the number of versions
must name an existing version. -/
def verFormatErrs (inv : VInv) : List VErr :=
  let vs := versionNames inv
  match vs with
  | [] => []
  | v0 :: _ =>
    (List.range vs.length).filterMap (fun i =>
      if vs.contains (versionGen (i + 1) (versionPadding v0)) then none
      else some VErr.verFormatErr)

/-- The ManDigestErr emissions: every digest in every version state
must be present in the manifest. -/
def manDigestErrs (inv : VInv) : List VErr :=
  ((versionsList inv).map (fun vp =>
    vp.2.filterMap (fun d =>
      if lenDigest inv.manifest d = 0 then some VErr.manDigestErr
      else none))).flatten

/-- Inventory.validateStructure with the context never cancelled: the
list of errors sent on the channel, in source order. -/
def validateStructure (inv : VInv) : List VErr :=
  (if inv.id = "" then [VErr.invIDErr] else []) ++
  (if inv.typ = inventoryTypeStr then [] else [VErr.invTypeErr]) ++
  (if inv.digestAlgorithm = "" then [VErr.invDigestErr]
   else if digestAlgorithms.contains inv.digestAlgorithm then []
   else [VErr.invDigestErr]) ++
  (if inv.manifest = none then [VErr.invNoManErr] else []) ++
  (if inv.versions = none then [VErr.invNoVerErr] else []) ++
  verFormatErrs inv ++ manDigestErrs inv

/-- An object under streaming validation: its root inventory plus the
errors its later phases would emit on the stream — the version
directory phase (validateVerDir over every version directory, including
a versionDirs listing failure), the manifest checksum phase and the
fixity checksum phase, each an environment oracle. -/
structure VObject where
  inv : VInv
  verDirErrs : List VErr
  manifestCheckErrs : List VErr
  fixityCheckErrs : List VErr

/-- Object.Validate with the context never cancelled: the goroutine
ranges over validateStructure's channel keeping the last received error
in invErr; since every sent error is non-nil, invErr is non-nil after
the loop exactly when at least one structural error was emitted, and
the code then returns ("don't continue if inventory is broken") without
running the version directory, manifest checksum or fixity phases. -/
def validateOut (o : VObject) : List VErr :=
  match validateStructure o.inv with
  | [] => o.verDirErrs ++ o.manifestCheckErrs ++ o.fixityCheckErrs
  | e :: rest => e :: rest

/-- A root inventory that is structurally valid except for an empty id. -/
def emptyIDInv : VInv :=
  ⟨"", inventoryTypeStr, "sha512",
    some [("d1", ["v1/content/a.txt"])], some [("v1", ["d1"])]⟩

/-- The same object with a manifest checksum phase that would report a
content mismatch. -/
def emptyIDObj : VObject :=
  ⟨emptyIDInv, [], [VErr.contentChecksumErr], []⟩

/-- Claim C3 (counterexample): after emitting the root-inventory
structural error InvIDErr, the stream closes without proceeding to the
later phases — the manifest checksum phase would have emitted
ContentChecksumErr, but the emitted stream is exactly the structural
error.  validation.go lines 90-93 return from Validate whenever the
structure phase emitted anything. -/
theorem c3_structural_error_stops_stream :
    validateStructure emptyIDInv = [VErr.invIDErr] ∧
    validateOut emptyIDObj = [VErr.invIDErr] ∧
    emptyIDObj.manifestCheckErrs = [VErr.contentChecksumErr] ∧
    VErr.contentChecksumErr ∉ validateOut emptyIDObj := by decide

/-- Claim C3 (amended): a root-inventory structural error is emitted
and then stops the stream — Validate returns without running the
version directory, manifest checksum and fixity phases; only when the
structure phase emits nothing does validation proceed to the later
phases and emit their errors. -/
theorem c3_amended_phases (o : VObject) :
    (validateStructure o.inv ≠ [] → validateOut o = validateStructure o.inv) ∧
    (validateStructure o.inv = [] →
      validateOut o = o.verDirErrs ++ o.manifestCheckErrs ++ o.fixityCheckErrs) := by
  unfold validateOut
  cases validateStructure o.inv with
  | nil => exact ⟨fun h => absurd rfl h, fun h => rfl⟩
  | cons e rest => exact ⟨fun h => rfl, fun h => by simp at h⟩

theorem c3_amended_phases_witness :
    validateOut emptyIDObj = validateStructure emptyIDObj.inv :=
  (c3_amended_phases emptyIDObj).1 (by decide)

/-! ## ContentMap.Validate (validation.go lines 171-206)

The consumer goroutine ranges over the digester's result channel; at
each received result it first polls ctx.Done() (Go's select prefers a
ready channel case over default), and on observing cancellation it
sends one CtxCanceledErr and returns, closing the stream.  A run of the
goroutine is embedded as the list of received results, each paired with
the sampled cancellation flag at that iteration. -/

/-- A digester result: a job error (an I/O error from opening or
reading the file — the digester never produces a CtxCanceledErr), the
computed sum and the expected sum. -/
structure ChkResult where
  err : Option String
  sum : String
  expected : String
deriving DecidableEq

/-- The errors emitted for one result in the non-cancelled branch:
result.err verbatim when set, else ContentChecksumErr on a sum
mismatch, else nothing. -/
def cmStep (r : ChkResult) : List VErr :=
  match r.err with
  | some m => [VErr.ioErr m]
  | none => if r.sum = r.expected then [] else [VErr.contentChecksumErr]

/-- The error stream of ContentMap.Validate over a run: process results
until the channel closes or cancellation is observed, in which case one
terminal CtxCanceledErr is emitted and the stream closes. -/
def cmConsume : List (Bool × ChkResult) → List VErr
  | [] => []
  | (c, r) :: rest =>
    if c then [VErr.ctxCanceledErr]
    else cmStep r ++ cmConsume rest

lemma ctxCanceled_not_mem_cmStep (r : ChkResult) :
    VErr.ctxCanceledErr ∉ cmStep r := by
  rcases h : r.err with _ | m <;> simp [cmStep, h]

/-- Claim C9: if the context is observed cancelled at some iteration of
a ContentMap checksum-validation stream, the emitted stream consists of
the checksum errors produced before that observation followed by
exactly one terminal CtxCanceledErr, after which the stream closes with
no further checksum errors. -/
theorem c9_cancel_terminal (trace : List (Bool × ChkResult))
    (h : ∃ x ∈ trace, x.1 = true) :
    ∃ pre, cmConsume trace = pre ++ [VErr.ctxCanceledErr] ∧
      VErr.ctxCanceledErr ∉ pre := by
  induction trace with
  | nil => simp at h
  | cons hd tl ih =>
    by_cases hc : hd.1 = true
    · refine ⟨[], ?_, by simp⟩
      obtain ⟨c, r⟩ := hd
      simp only at hc
      simp [cmConsume, hc]
    · have h2 : ∃ x ∈ tl, x.1 = true := by
        obtain ⟨x, hx, hxt⟩ := h
        rcases List.mem_cons.mp hx with hx | hx
        · exact absurd (hx ▸ hxt) hc
        · exact ⟨x, hx, hxt⟩
      obtain ⟨pre, hpre, hmem⟩ := ih h2
      obtain ⟨c, r⟩ := hd
      simp only at hc
      refine ⟨cmStep r ++ pre, ?_, ?_⟩
      · simp [cmConsume, hc, hpre]
      · intro hin
        rcases List.mem_append.mp hin with hin | hin
        · exact ctxCanceled_not_mem_cmStep r hin
        · exact hmem hin

/-- A run in which the first result is a mismatch processed before
cancellation and the second is dequeued after cancellation. -/
def cancelTrace : List (Bool × ChkResult) :=
  [(false, ⟨none, "aa", "bb"⟩), (true, ⟨none, "cc", "cc"⟩)]

theorem c9_cancel_terminal_witness :
    ∃ pre, cmConsume cancelTrace = pre ++ [VErr.ctxCanceledErr] ∧
      VErr.ctxCanceledErr ∉ pre :=
  c9_cancel_terminal cancelTrace
    ⟨(true, ⟨none, "cc", "cc"⟩), by simp [cancelTrace], rfl⟩

/-! ## ObjectReader.VersionFS (object_reader.go lines 82-99) -/

/-- A version as VersionFS reads it: its logical state, embedded as
(logical path, digest) pairs.

Modelled from the spec: ContentMap.GetDigest is not under src/; per
spec section 4.B it returns the digest bound to the path, and the Go
map read yields the empty string for an unbound path. -/
structure VersionR where
  State : List (String × String)
deriving DecidableEq

def getDigest (st : List (String × String)) (p : String) : String :=
  match lookupAssoc st p with
  | some d => d
  | none => ""

/-- The inventory fields VersionFS reads: the version map and the
manifest (digest to content paths). -/
structure InventoryR where
  Versions : List (String × VersionR)
  Manifest : List (String × List String)

/-- The content paths bound to a digest; the Go map read yields nil for
an absent digest. -/
def manifestPaths (inv : InventoryR) (d : String) : List String :=
  (lookupAssoc inv.Manifest d).getD []

inductive VFSErr where
  | versionNotFound (vname : String)
  | notExist (lp : String)
  | orphanDigest (d : String)
deriving DecidableEq

/-- Whether the error wraps fs.ErrNotExist (errors.Is would report it):
only the unknown-logical-path error does. -/
def vfsIsNotExist : VFSErr → Bool
  | .notExist _ => true
  | _ => false

/-- VersionFS(vname) followed by an Open(lp) on the returned filesystem:
look the version up (unknown version is an error from VersionFS
itself); resolve lp to a digest via the version state (empty means a
not-exist error), the digest to its manifest paths (none means the
orphan-digest error), and open the first manifest path.  The opened
file is represented by the content path passed to root.Open. -/
def versionFSOpen (inv : InventoryR) (vname lp : String) : Except VFSErr String :=
  match lookupAssoc inv.Versions vname with
  | none => .error (.versionNotFound vname)
  | some v =>
    if getDigest v.State lp = "" then .error (.notExist lp)
    else
      match manifestPaths inv (getDigest v.State lp) with
      | [] => .error (.orphanDigest (getDigest v.State lp))
      | rp :: _ => .ok rp

/-- Claim C7: for a version name present in the inventory, opening a
logical path through the VersionFS filesystem resolves the path to its
digest in that version's state and opens the first manifest path bound
to that digest; a path absent from the state yields an error satisfying
the not-exist predicate, and a digest with no manifest entries yields
an error (the orphan-digest error, which is not a not-exist error). -/
theorem c7_versionfs_resolution (inv : InventoryR) (vname lp : String)
    (v : VersionR) (hv : lookupAssoc inv.Versions vname = some v) :
    (getDigest v.State lp = "" →
      versionFSOpen inv vname lp = .error (.notExist lp) ∧
      vfsIsNotExist (.notExist lp) = true) ∧
    (getDigest v.State lp ≠ "" →
      manifestPaths inv (getDigest v.State lp) = [] →
      versionFSOpen inv vname lp =
        .error (.orphanDigest (getDigest v.State lp)) ∧
      vfsIsNotExist (.orphanDigest (getDigest v.State lp)) = false) ∧
    (∀ rp rest, getDigest v.State lp ≠ "" →
      manifestPaths inv (getDigest v.State lp) = rp :: rest →
      versionFSOpen inv vname lp = .ok rp) := by
  refine ⟨fun h => ⟨by simp [versionFSOpen, hv, h], rfl⟩,
    fun hne hm => ⟨by simp [versionFSOpen, hv, hne, hm], rfl⟩,
    fun rp rest hne hm => by simp [versionFSOpen, hv, hne, hm]⟩

def sampleVer : VersionR := ⟨[("a.txt", "dA")]⟩

def sampleInv : InventoryR :=
  ⟨[("v1", sampleVer)], [("dA", ["v1/content/a.txt"])]⟩

theorem c7_versionfs_resolution_witness :
    versionFSOpen sampleInv "v1" "a.txt" = .ok "v1/content/a.txt" ∧
    versionFSOpen sampleInv "v1" "missing.txt" =
      .error (.notExist "missing.txt") :=
  ⟨(c7_versionfs_resolution sampleInv "v1" "a.txt" sampleVer
      (by decide)).2.2 "v1/content/a.txt" [] (by decide) (by decide),
   ((c7_versionfs_resolution sampleInv "v1" "missing.txt" sampleVer
      (by decide)).1 (by decide)).1⟩

end OCFL
